import Mathlib

/-!
Shallow embedding of the batch YouTube downloader
(`batch_download_youtube.py`, with the shared retry loop also present in
`download_youtube_yt_dlp.py`).

The external collaborators (the `yt_dlp` fetcher, the filesystem, the
`csv` module's row parser and the thread pool) are modelled as oracles:
a fetch oracle gives the result of each fetch attempt, a `FileRead`
records what the file iteration yielded before completing or raising,
and the executor is a guarded step relation.  Everything the scripts
themselves compute is translated directly from the source.
-/

/-- Python `str.lower()` on one character (ASCII range; extensions the
scripts compare against are ASCII). -/
def asciiLowerChar (c : Char) : Char :=
  if 'A' ≤ c && c ≤ 'Z' then Char.ofNat (c.toNat + 32) else c

/-- Python `str.lower()`. -/
def asciiLower (s : String) : String :=
  String.mk (s.data.map asciiLowerChar)

/-- Python `s.startswith(pre)`. -/
def pyStartsWith (s pre : String) : Bool :=
  pre.data.isPrefixOf s.data

/-- Python `str.strip()` whitespace set (ASCII part; the scripts only
meet ASCII whitespace in URL lists). -/
def isPyWhitespace (c : Char) : Bool :=
  c == ' ' || c == '\t' || c == '\n' || c == '\r' || c == '\x0b' || c == '\x0c'

/-- Python `str.strip()`: drop leading and trailing whitespace. -/
def pstrip (s : String) : String :=
  String.mk (((s.data.dropWhile isPyWhitespace).reverse.dropWhile isPyWhitespace).reverse)

/-- Index of the last occurrence of `c` in `l`, or `-1` when absent —
Python's `str.rfind`. -/
def rfindChar (l : List Char) (c : Char) : Int :=
  match l.reverse.findIdx? (· == c) with
  | some j => (l.length : Int) - 1 - (j : Int)
  | none => -1

/-- The extension part of `os.path.splitext(p)` on a POSIX path: the
suffix from the last dot, provided that dot comes after the last `/`
and the name before it is not made of dots only. -/
def splitextExt (p : String) : String :=
  let l := p.data
  let sepIdx := rfindChar l '/'
  let dotIdx := rfindChar l '.'
  if sepIdx < dotIdx then
    let base := (l.take dotIdx.toNat).drop (sepIdx + 1).toNat
    if base.any (fun c => c != '.') then String.mk (l.drop dotIdx.toNat) else ""
  else ""

/-- The dispatch test of `read_urls_from_file`:
`ext = os.path.splitext(file_path)[1].lower(); ext == '.csv'`. -/
def isCsvExt (p : String) : Bool :=
  asciiLower (splitextExt p) == ".csv"

/-- What one attempt to read the input file yielded.  `rows` are the
rows the `csv.reader` produced and `lines` the lines the text iteration
produced before the read either finished or raised; `fails` records
whether an exception was raised after yielding them (a failure on
`open` is `fails = true` with nothing yielded). -/
structure FileRead where
  rows : List (List String)
  lines : List String
  fails : Bool
deriving Repr, DecidableEq

/-- The CSV loop of `read_urls_from_file`:
`if row and row[0].strip(): urls.append(row[0].strip())`. -/
def csvCollect (rows : List (List String)) : List String :=
  rows.foldl
    (fun urls row =>
      match row with
      | [] => urls
      | c :: _ => if pstrip c == "" then urls else urls ++ [pstrip c])
    []

/-- The text loop of `read_urls_from_file`:
`line = line.strip(); if line and not line.startswith('#'): urls.append(line)`. -/
def textCollect (lines : List String) : List String :=
  lines.foldl
    (fun urls line =>
      let l := pstrip line
      if l != "" && !pyStartsWith l "#" then urls ++ [l] else urls)
    []

/-- `read_urls_from_file(file_path)`.  The `except` clause only prints,
so the function returns the URLs accumulated up to the point the read
stopped, whether it finished or raised. -/
def read_urls_from_file (path : String) (f : FileRead) : List String :=
  let ext := asciiLower (splitextExt path)
  if ext == ".csv" then csvCollect f.rows else textCollect f.lines

/-- Declarative reading of the CSV branch, following the spec's words:
the stripped first-column value of every row whose first column is
non-empty after stripping, in file order. -/
def csvSpecUrls (rows : List (List String)) : List String :=
  rows.filterMap (fun row =>
    let u := pstrip (row.headD "")
    if u == "" then none else some u)

/-- Declarative reading of the text branch, following the spec's words:
every stripped line that is non-blank and does not start with `#`,
in file order. -/
def textSpecUrls (lines : List String) : List String :=
  (lines.map pstrip).filter (fun l => l != "" && !pyStartsWith l "#")

/-- Result of one `ydl.extract_info` call as `download_video` observes
it: a metadata record (whose `title` field may be absent), a falsy
record, a raised `DownloadError`, or any other raised exception. -/
inductive FetchResult where
  | success (title : Option String)
  | emptyInfo
  | downloadError (msg : String)
  | otherError (msg : String)
deriving Repr, DecidableEq

/-- An attempt that does not return metadata. -/
def FetchResult.isFailure : FetchResult → Bool
  | .success _ => false
  | _ => true

/-- The `error_msg` recorded for a failed attempt, by the branch taken. -/
def errMsgOf : FetchResult → String
  | .success _ => ""
  | .emptyInfo => "无法获取视频信息"
  | .downloadError e => "下载错误: " ++ e
  | .otherError e => "发生错误: " ++ e

/-- Instrumented run of `download_video`: the returned tuple
`(succeeded, title, error)` plus how many fetch calls were made and
which `time.sleep` waits (in seconds) happened, in order. -/
structure DVRun where
  succeeded : Bool
  title : String
  error : String
  fetchCalls : Nat
  waits : List Nat
deriving Repr, DecidableEq

/-- The `while retries < max_retries` loop of `download_video`, entered
with `retries = r` completed failed attempts and `error_msg = em`.
`fetch i` is the outcome of the i-th fetch call (i starting at 1; the
call made when `retries = r` is call `r + 1`).  After a failed attempt
the code increments `retries` and, when `retries < max_retries` still
holds, sleeps `2 ** retries` seconds and loops. -/
def downloadGo (fetch : Nat → FetchResult) (max_retries : Int)
    (r : Nat) (em : String) : DVRun :=
  if h : (r : Int) < max_retries then
    match fetch (r + 1) with
    | .success t =>
        { succeeded := true, title := t.getD "未知标题", error := "",
          fetchCalls := 1, waits := [] }
    | f =>
        if h2 : ((r + 1 : Nat) : Int) < max_retries then
          let rest := downloadGo fetch max_retries (r + 1) (errMsgOf f)
          { succeeded := rest.succeeded, title := rest.title,
            error := rest.error, fetchCalls := rest.fetchCalls + 1,
            waits := 2 ^ (r + 1) :: rest.waits }
        else
          { succeeded := false, title := "", error := errMsgOf f,
            fetchCalls := 1, waits := [] }
  else
    { succeeded := false, title := "", error := em, fetchCalls := 0, waits := [] }
termination_by (max_retries - r).toNat
decreasing_by simp_wf; omega

/-- `download_video(url, ...)`: the loop starts with `retries = 0`,
`error_msg = ""`.  (`max_retries` is a Python `int`, so it may be
negative; the output directory creation and printing are side effects
outside the returned value.) -/
def download_video (fetch : Nat → FetchResult) (max_retries : Int) : DVRun :=
  downloadGo fetch max_retries 0 ""

/-- The outcome tuple `batch_download` appends for the task of index
`i` (0-based): `future.result()` either returns `download_video`'s
tuple `(success, title, error)` — giving `(url, success, title, error)`
— or raises `e` — giving `(url, False, "", str(e))`. -/
def runTask (urls : List String)
    (taskRes : Nat → Except String (Bool × String × String)) (i : Nat) :
    String × Bool × String × String :=
  match taskRes i with
  | .ok (s, t, e) => (urls.getD i "", s, t, e)
  | .error m => (urls.getD i "", false, "", m)

/-- The result list of `batch_download(urls, ...)`: one future per URL
is submitted up front, and `as_completed` yields the futures in some
completion order — `order`, a permutation of the task indices.  Each
completed future appends exactly one tuple. -/
def batch_download (urls : List String)
    (taskRes : Nat → Except String (Bool × String × String))
    (order : List Nat) : List (String × Bool × String × String) :=
  order.map (runTask urls taskRes)

/-- State of the `ThreadPoolExecutor(max_workers=max_workers)` pool
while a batch runs: tasks not yet started, tasks in flight, tasks
finished.  All `len(urls)` tasks are submitted up front, so the initial
state is `⟨len(urls), 0, 0⟩`. -/
structure PoolState where
  pending : Nat
  running : Nat
  completed : Nat
deriving Repr, DecidableEq

/-- Modelled from the spec: the executor's scheduling contract — a
pending task starts only when fewer than `max_workers` tasks are
running, and a running task may finish at any time.  (The pool itself
is standard-library code, not part of this repository.) -/
inductive PoolStep (max_workers : Nat) : PoolState → PoolState → Prop where
  | start (p r c : Nat) : r < max_workers →
      PoolStep max_workers ⟨p + 1, r, c⟩ ⟨p, r + 1, c⟩
  | finish (p r c : Nat) :
      PoolStep max_workers ⟨p, r + 1, c⟩ ⟨p, r, c + 1⟩

/-- Initial pool state of `batch_download`: every task submitted,
none running. -/
def batchPoolInit (urls : List String) : PoolState :=
  ⟨urls.length, 0, 0⟩

/-- How a run of `main` ends (identical handler structure in
`batch_download_youtube.py` and `download_youtube_yt_dlp.py`):
it returns normally carrying the collected results, or a
`KeyboardInterrupt` reaches the top, or some other exception does. -/
inductive MainTermination where
  | completed (results : List (String × Bool × String × String))
  | interrupted
  | unhandledError (msg : String)

/-- The process exit status of `main`: `sys.exit(0)` on
`KeyboardInterrupt`, `sys.exit(1)` on any other exception, and the
implicit status 0 on normal return. -/
def mainExitCode : MainTermination → Nat
  | .completed _ => 0
  | .interrupted => 0
  | .unhandledError _ => 1

/-- A fetch oracle that fails twice with a `DownloadError`, then succeeds. -/
def wfetch : Nat → FetchResult := fun i =>
  if i < 3 then .downloadError "网络超时" else .success (some "Demo Video")

/-- A fetch oracle that always raises a generic exception. -/
def failFetch : Nat → FetchResult := fun _ => .otherError "broken pipe"

/-- A concrete three-URL batch. -/
def wUrls : List String :=
  ["https://youtu.be/a", "https://youtu.be/b", "https://youtu.be/c"]

/-- Task results for `wUrls`: task 1's `future.result()` raises, the
others return successful tuples. -/
def wTaskRes : Nat → Except String (Bool × String × String) := fun i =>
  if i == 1 then .error "boom" else .ok (true, "title", "")

/-- A completion order for `wUrls` differing from submission order. -/
def wOrder : List Nat := [1, 2, 0]

/-- A text read that yields one URL line and then raises. -/
def midFailRead : FileRead :=
  { rows := [], lines := ["https://youtu.be/x"], fails := true }

/-- A read that fails on `open`: nothing yielded. -/
def openFailRead : FileRead := { rows := [], lines := [], fails := true }

/-- A CSV read whose only row has a `#`-leading first column. -/
def hashCsvRead : FileRead :=
  { rows := [["#chan", "x"]], lines := [], fails := false }

/-- A completed read with blank, comment and padded entries. -/
def okRead : FileRead :=
  { rows := [[" u1 "], [], ["", "y"], ["u2"]],
    lines := ["https://youtu.be/a", "  ", "# comment", " https://youtu.be/b "],
    fails := false }

/-! ### Helper lemmas -/

theorem csvCollect_go (rows : List (List String)) (acc : List String) :
    rows.foldl
      (fun urls row =>
        match row with
        | [] => urls
        | c :: _ => if pstrip c == "" then urls else urls ++ [pstrip c])
      acc = acc ++ csvSpecUrls rows := by
  induction rows generalizing acc with
  | nil => simp [csvSpecUrls]
  | cons row rest ih =>
    cases row with
    | nil =>
      rw [List.foldl_cons, ih]
      simp [csvSpecUrls, pstrip]
    | cons c cs =>
      rw [List.foldl_cons]
      by_cases hc : pstrip c = ""
      · have hcb : (pstrip c == "") = true := by simpa using hc
        simp only [hcb, if_true, ih]
        simp [csvSpecUrls, hc]
      · have hcb : (pstrip c == "") = false := by simpa using hc
        simp only [hcb, Bool.false_eq_true, if_false, ih]
        simp [csvSpecUrls, hc, List.append_assoc]

theorem csvCollect_eq (rows : List (List String)) :
    csvCollect rows = csvSpecUrls rows := by
  rw [csvCollect, csvCollect_go, List.nil_append]

theorem textCollect_go (lines : List String) (acc : List String) :
    lines.foldl
      (fun urls line =>
        let l := pstrip line
        if l != "" && !pyStartsWith l "#" then urls ++ [l] else urls)
      acc = acc ++ textSpecUrls lines := by
  induction lines generalizing acc with
  | nil => simp [textSpecUrls]
  | cons line rest ih =>
    rw [List.foldl_cons]
    by_cases hc : (pstrip line != "" && !pyStartsWith (pstrip line) "#") = true
    · simp only [hc, if_true, ih]
      simp [textSpecUrls, List.filter_cons, hc, List.append_assoc]
    · simp only [eq_false_of_ne_true hc, if_false, ih]
      simp only [Bool.not_eq_true] at hc
      simp [textSpecUrls, List.filter_cons, hc]

theorem textCollect_eq (lines : List String) :
    textCollect lines = textSpecUrls lines := by
  rw [textCollect, textCollect_go, List.nil_append]

theorem errMsgOf_ne_empty (f : FetchResult) (hf : f.isFailure = true) :
    errMsgOf f ≠ "" := by
  cases f with
  | success t => simp [FetchResult.isFailure] at hf
  | emptyInfo => decide
  | downloadError e =>
    intro h
    have hl := congrArg String.length h
    rw [errMsgOf, String.length_append] at hl
    rw [show ("下载错误: ").length = 6 from rfl,
      show ("" : String).length = 0 from rfl] at hl
    omega
  | otherError e =>
    intro h
    have hl := congrArg String.length h
    rw [errMsgOf, String.length_append] at hl
    rw [show ("发生错误: ").length = 6 from rfl,
      show ("" : String).length = 0 from rfl] at hl
    omega

theorem downloadGo_stop (fetch : Nat → FetchResult) (mr : Int) (r : Nat) (em : String)
    (h1 : ¬ (r : Int) < mr) :
    downloadGo fetch mr r em =
      { succeeded := false, title := "", error := em, fetchCalls := 0, waits := [] } := by
  rw [downloadGo, dif_neg h1]

theorem downloadGo_succ_step (fetch : Nat → FetchResult) (mr : Int) (r : Nat) (em : String)
    (topt : Option String) (hs : fetch (r + 1) = .success topt) (h1 : (r : Int) < mr) :
    downloadGo fetch mr r em =
      { succeeded := true, title := topt.getD "未知标题", error := "",
        fetchCalls := 1, waits := [] } := by
  rw [downloadGo, dif_pos h1, hs]

theorem downloadGo_fail_step (fetch : Nat → FetchResult) (mr : Int) (r : Nat) (em : String)
    (hf : (fetch (r + 1)).isFailure = true) (h1 : (r : Int) < mr) :
    downloadGo fetch mr r em =
      if h2 : ((r + 1 : Nat) : Int) < mr then
        { succeeded := (downloadGo fetch mr (r + 1) (errMsgOf (fetch (r + 1)))).succeeded,
          title := (downloadGo fetch mr (r + 1) (errMsgOf (fetch (r + 1)))).title,
          error := (downloadGo fetch mr (r + 1) (errMsgOf (fetch (r + 1)))).error,
          fetchCalls := (downloadGo fetch mr (r + 1) (errMsgOf (fetch (r + 1)))).fetchCalls + 1,
          waits := 2 ^ (r + 1) :: (downloadGo fetch mr (r + 1) (errMsgOf (fetch (r + 1)))).waits }
      else
        { succeeded := false, title := "", error := errMsgOf (fetch (r + 1)),
          fetchCalls := 1, waits := [] } := by
  rw [downloadGo, dif_pos h1]
  cases hfe : fetch (r + 1) with
  | success t => rw [hfe] at hf; simp [FetchResult.isFailure] at hf
  | emptyInfo => rfl
  | downloadError e => rfl
  | otherError e => rfl

theorem downloadGo_success (fetch : Nat → FetchResult) (mr : Int) (k : Nat)
    (topt : Option String) (r : Nat) (em : String)
    (hrk : r < k) (hk : (k : Int) ≤ mr)
    (hfail : ∀ i, r < i → i < k → (fetch i).isFailure = true)
    (hsucc : fetch k = .success topt) :
    downloadGo fetch mr r em =
      { succeeded := true, title := topt.getD "未知标题", error := "",
        fetchCalls := k - r,
        waits := (List.range' (r + 1) (k - 1 - r)).map (fun i => 2 ^ i) } := by
  have h1 : (r : Int) < mr := by omega
  by_cases hek : r + 1 = k
  · rw [downloadGo_succ_step fetch mr r em topt (by rw [hek]; exact hsucc) h1]
    have hc1 : k - r = 1 := by omega
    have hc0 : k - 1 - r = 0 := by omega
    rw [hc1, hc0]
    rfl
  · have hlt : r + 1 < k := by omega
    have hf : (fetch (r + 1)).isFailure = true := hfail (r + 1) (by omega) hlt
    have h2 : ((r + 1 : Nat) : Int) < mr := by omega
    rw [downloadGo_fail_step fetch mr r em hf h1, dif_pos h2]
    rw [downloadGo_success fetch mr k topt (r + 1) (errMsgOf (fetch (r + 1))) hlt hk
      (fun i hi1 hi2 => hfail i (by omega) hi2) hsucc]
    have hc : k - (r + 1) + 1 = k - r := by omega
    have hw : k - 1 - r = k - 1 - (r + 1) + 1 := by omega
    rw [hc, hw, List.range'_succ]
    rfl
termination_by k - r

theorem downloadGo_allFail (fetch : Nat → FetchResult) (mr : Int)
    (r : Nat) (em : String) (hr : (r : Int) < mr)
    (hfail : ∀ i, r < i → (i : Int) ≤ mr → (fetch i).isFailure = true) :
    downloadGo fetch mr r em =
      { succeeded := false, title := "", error := errMsgOf (fetch mr.toNat),
        fetchCalls := mr.toNat - r,
        waits := (List.range' (r + 1) (mr.toNat - 1 - r)).map (fun i => 2 ^ i) } := by
  have hf : (fetch (r + 1)).isFailure = true := hfail (r + 1) (by omega) (by omega)
  rw [downloadGo_fail_step fetch mr r em hf hr]
  by_cases h2 : ((r + 1 : Nat) : Int) < mr
  · rw [dif_pos h2]
    rw [downloadGo_allFail fetch mr (r + 1) (errMsgOf (fetch (r + 1))) h2
      (fun i hi1 hi2 => hfail i (by omega) hi2)]
    have hc : mr.toNat - (r + 1) + 1 = mr.toNat - r := by omega
    have hw : mr.toNat - 1 - r = mr.toNat - 1 - (r + 1) + 1 := by omega
    rw [hc, hw, List.range'_succ]
    rfl
  · rw [dif_neg h2]
    have hm1 : mr.toNat = r + 1 := by omega
    rw [hm1]
    have hc1 : r + 1 - r = 1 := by omega
    have hc0 : r + 1 - 1 - r = 0 := by omega
    rw [hc1, hc0]
    rfl
termination_by (mr - r).toNat
decreasing_by simp_wf; omega

theorem sum_pow_range' (m : Nat) :
    ((List.range' 1 m).map (fun i => 2 ^ i)).sum = ∑ i ∈ Finset.Icc 1 m, 2 ^ i := by
  induction m with
  | zero => simp
  | succ n ih =>
    rw [List.range'_1_concat, List.map_append, List.sum_append,
      Finset.sum_Icc_succ_top (by omega), ih]
    simp [Nat.add_comm]

theorem range_map_getD (urls : List String) :
    (List.range urls.length).map (fun i => urls.getD i "") = urls := by
  apply List.ext_getElem
  · simp
  · intro i h1 h2
    simp only [List.getElem_map, List.getElem_range]
    rw [List.getD_eq_getElem]

/-! ### The claims -/

/-- Claim C1: after `batch_download` completes without cancellation there is
exactly one outcome tuple per input URL: the result list has the same length
as the URL list, its url fields are a permutation of the input URLs (one
occurrence per task), and every outcome is the tuple of the task that
produced it, carrying that task's url. -/
theorem batch_download_one_outcome_per_url
    (urls : List String) (taskRes : Nat → Except String (Bool × String × String))
    (order : List Nat) (hperm : order.Perm (List.range urls.length)) :
    (batch_download urls taskRes order).length = urls.length ∧
    ((batch_download urls taskRes order).map (fun o => o.1)).Perm urls ∧
    ∀ o ∈ batch_download urls taskRes order,
      ∃ i, i < urls.length ∧ o = runTask urls taskRes i ∧ o.1 = urls.getD i "" := by
  have hlen : order.length = urls.length := by simpa using hperm.length_eq
  refine ⟨by simp [batch_download, hlen], ?_, ?_⟩
  · have hmap : (batch_download urls taskRes order).map (fun o => o.1)
        = order.map (fun i => urls.getD i "") := by
      rw [batch_download, List.map_map]
      apply List.map_congr_left
      intro i _
      cases h : taskRes i with
      | ok v => obtain ⟨s, t, e⟩ := v; simp [runTask, h]
      | error m => simp [runTask, h]
    rw [hmap]
    have h2 := hperm.map (fun i => urls.getD i "")
    rwa [range_map_getD] at h2
  · intro o ho
    rw [batch_download] at ho
    obtain ⟨i, hio, hoe⟩ := List.mem_map.mp ho
    have hir : i ∈ List.range urls.length := hperm.subset hio
    refine ⟨i, List.mem_range.mp hir, hoe.symm, ?_⟩
    rw [← hoe]
    cases h : taskRes i with
    | ok v => obtain ⟨s, t, e⟩ := v; simp [runTask, h]
    | error m => simp [runTask, h]

/-- Witness for C1: a three-URL batch collected in the order 1, 2, 0. -/
theorem batch_download_one_outcome_per_url_witness :
    wOrder.Perm (List.range wUrls.length) ∧
    (batch_download wUrls wTaskRes wOrder).length = wUrls.length ∧
    ((batch_download wUrls wTaskRes wOrder).map (fun o => o.1)).Perm wUrls :=
  ⟨by decide,
    (batch_download_one_outcome_per_url wUrls wTaskRes wOrder (by decide)).1,
    (batch_download_one_outcome_per_url wUrls wTaskRes wOrder (by decide)).2.1⟩

/-- Claim C2: if the fetch first succeeds on attempt k with 1 ≤ k ≤
max_retries, `download_video` makes exactly k fetch calls, returns right
after the k-th with succeeded = true and the extracted title, and the
backoff waits are exactly 2^1, ..., 2^(k-1) seconds — one wait of
2^attempt_number after each failed attempt, none after the success —
so the total wait is ∑ 2^i for i in 1..k-1. -/
theorem download_video_succeeds_on_attempt
    (fetch : Nat → FetchResult) (mr : Int) (k : Nat) (t : String)
    (hk1 : 1 ≤ k) (hk2 : (k : Int) ≤ mr)
    (hfail : ∀ i, 1 ≤ i → i < k → (fetch i).isFailure = true)
    (hsucc : fetch k = .success (some t)) :
    (download_video fetch mr).fetchCalls = k ∧
    (download_video fetch mr).succeeded = true ∧
    (download_video fetch mr).title = t ∧
    (download_video fetch mr).waits = (List.range' 1 (k - 1)).map (fun i => 2 ^ i) ∧
    (download_video fetch mr).waits.sum = ∑ i ∈ Finset.Icc 1 (k - 1), 2 ^ i := by
  have h := downloadGo_success fetch mr k (some t) 0 "" (by omega) hk2
    (fun i hi1 hi2 => hfail i (by omega) hi2) hsucc
  rw [download_video, h]
  exact ⟨rfl, rfl, rfl, rfl, sum_pow_range' (k - 1)⟩

/-- Witness for C2: two `DownloadError` failures, success on attempt 3 of 3;
3 fetch calls and waits of 2 and 4 seconds. -/
theorem download_video_succeeds_on_attempt_witness :
    (1 ≤ 3 ∧ ((3 : Nat) : Int) ≤ 3) ∧
    (∀ i, 1 ≤ i → i < 3 → (wfetch i).isFailure = true) ∧
    wfetch 3 = .success (some "Demo Video") ∧
    (download_video wfetch 3).fetchCalls = 3 ∧
    (download_video wfetch 3).waits.sum = ∑ i ∈ Finset.Icc 1 2, 2 ^ i := by
  have hf : ∀ i, 1 ≤ i → i < 3 → (wfetch i).isFailure = true := by
    intro i h1 h2
    interval_cases i <;> rfl
  have h := download_video_succeeds_on_attempt wfetch 3 3 "Demo Video"
    (by omega) (by decide) hf rfl
  exact ⟨⟨by omega, by decide⟩, hf, rfl, h.1, h.2.2.2.2⟩

/-- Claim C3: when every attempt fails, `download_video` makes exactly
max_retries fetch calls and then returns — it does not raise — with
succeeded = false and a non-empty error message, namely the one recorded
on the last attempt. -/
theorem download_video_exhausts_retries
    (fetch : Nat → FetchResult) (mr : Int) (hmr : 1 ≤ mr)
    (hfail : ∀ i : Nat, 1 ≤ i → (i : Int) ≤ mr → (fetch i).isFailure = true) :
    (download_video fetch mr).fetchCalls = mr.toNat ∧
    (download_video fetch mr).succeeded = false ∧
    (download_video fetch mr).error = errMsgOf (fetch mr.toNat) ∧
    (download_video fetch mr).error ≠ "" := by
  have h := downloadGo_allFail fetch mr 0 "" (by omega)
    (fun i hi1 hi2 => hfail i (by omega) hi2)
  rw [download_video, h]
  exact ⟨rfl, rfl, rfl, errMsgOf_ne_empty _ (hfail mr.toNat (by omega) (by omega))⟩

/-- Witness for C3: a fetch that always raises, max_retries = 3. -/
theorem download_video_exhausts_retries_witness :
    (1 : Int) ≤ 3 ∧
    (∀ i : Nat, 1 ≤ i → (i : Int) ≤ 3 → (failFetch i).isFailure = true) ∧
    (download_video failFetch 3).fetchCalls = (3 : Int).toNat ∧
    (download_video failFetch 3).error ≠ "" := by
  have hf : ∀ i : Nat, 1 ≤ i → (i : Int) ≤ 3 → (failFetch i).isFailure = true :=
    fun i h1 h2 => rfl
  have h := download_video_exhausts_retries failFetch 3 (by decide) hf
  exact ⟨by decide, hf, h.1, h.2.2.2⟩

/-- Claim C9: with max_retries ≤ 0 the `while` body never runs — no fetch
call, no wait — and `download_video` returns `(False, "", "")`. -/
theorem download_video_nonpositive_retries
    (fetch : Nat → FetchResult) (mr : Int) (hmr : mr ≤ 0) :
    download_video fetch mr =
      { succeeded := false, title := "", error := "", fetchCalls := 0, waits := [] } := by
  rw [download_video, downloadGo_stop fetch mr 0 "" (by omega)]

/-- Witness for C9 at max_retries = -1. -/
theorem download_video_nonpositive_retries_witness :
    (-1 : Int) ≤ 0 ∧
    download_video failFetch (-1) =
      { succeeded := false, title := "", error := "", fetchCalls := 0, waits := [] } :=
  ⟨by decide, download_video_nonpositive_retries failFetch (-1) (by decide)⟩

/-- Claim C4: if retrieving one task's result raises, `batch_download`
catches it, appends the outcome `(url, False, "", str(e))` for that task,
and still collects every task's outcome — one task's crash neither aborts
the batch nor reduces the outcome count. -/
theorem batch_download_isolates_task_error
    (urls : List String) (taskRes : Nat → Except String (Bool × String × String))
    (order : List Nat) (i : Nat) (m : String)
    (hperm : order.Perm (List.range urls.length))
    (hi : i < urls.length) (hres : taskRes i = .error m) :
    (urls.getD i "", false, "", m) ∈ batch_download urls taskRes order ∧
    (batch_download urls taskRes order).length = urls.length ∧
    ∀ j, j < urls.length → runTask urls taskRes j ∈ batch_download urls taskRes order := by
  have hmem : ∀ j, j < urls.length →
      runTask urls taskRes j ∈ batch_download urls taskRes order := by
    intro j hj
    have hjo : j ∈ order := hperm.mem_iff.mpr (List.mem_range.mpr hj)
    exact List.mem_map_of_mem _ hjo
  refine ⟨?_, ?_, hmem⟩
  · have h := hmem i hi
    simpa [runTask, hres] using h
  · have hlen : order.length = urls.length := by simpa using hperm.length_eq
    simp [batch_download, hlen]

/-- Witness for C4: task 1's result retrieval raises "boom"; its failure
tuple is in the collected results. -/
theorem batch_download_isolates_task_error_witness :
    wOrder.Perm (List.range wUrls.length) ∧ 1 < wUrls.length ∧
    wTaskRes 1 = .error "boom" ∧
    (wUrls.getD 1 "", false, "", "boom") ∈ batch_download wUrls wTaskRes wOrder :=
  ⟨by decide, by decide, rfl,
    (batch_download_isolates_task_error wUrls wTaskRes wOrder 1 "boom"
      (by decide) (by decide) rfl).1⟩

/-- Claim C5: for every concurrency bound ≥ 1 and every task count, no state
the executor can reach from `batch_download`'s initial state (all tasks
submitted up front) ever has more than max_workers tasks running. -/
theorem pool_never_exceeds_max_workers
    (max_workers : Nat) (urls : List String) (s : PoolState)
    (hmw : 1 ≤ max_workers)
    (h : Relation.ReflTransGen (PoolStep max_workers) (batchPoolInit urls) s) :
    s.running ≤ max_workers := by
  induction h with
  | refl => simp [batchPoolInit]
  | tail h1 h2 ih =>
    cases h2 with
    | start p r c hr => exact hr
    | finish p r c => exact Nat.le_of_succ_le ih

/-- Witness for C5: bound 1, two tasks, one start step taken. -/
theorem pool_never_exceeds_max_workers_witness :
    1 ≤ 1 ∧ (PoolState.mk 1 1 0).running ≤ 1 :=
  ⟨Nat.le_refl 1,
    pool_never_exceeds_max_workers 1 ["u", "v"] ⟨1, 1, 0⟩ (Nat.le_refl 1)
      (Relation.ReflTransGen.single (PoolStep.start 1 0 0 Nat.zero_lt_one))⟩

/-- Counterexample to C6 as stated: a text read that yields one URL line and
then fails with an I/O error; `read_urls_from_file` returns the accumulated
URL, not an empty sequence. -/
theorem read_urls_midread_failure_not_empty :
    midFailRead.fails = true ∧
    read_urls_from_file "urls.txt" midFailRead = ["https://youtu.be/x"] ∧
    ["https://youtu.be/x"] ≠ ([] : List String) :=
  ⟨rfl, rfl, by decide⟩

/-- Claim C6 (amended): on an I/O failure `read_urls_from_file` prints the
error and returns the URLs accumulated before the failure point; in
particular, when reading fails before anything is yielded (e.g. `open`
fails), it returns the empty list. -/
theorem read_urls_open_failure_empty (path : String) (f : FileRead)
    (hfails : f.fails = true) (hrows : f.rows = []) (hlines : f.lines = []) :
    read_urls_from_file path f = [] := by
  simp only [read_urls_from_file, hrows, hlines]
  split <;> rfl

/-- Witness for C6 (amended): a read failing on `open`. -/
theorem read_urls_open_failure_empty_witness :
    openFailRead.fails = true ∧ openFailRead.rows = [] ∧ openFailRead.lines = [] ∧
    read_urls_from_file "missing.txt" openFailRead = [] :=
  ⟨rfl, rfl, rfl, read_urls_open_failure_empty "missing.txt" openFailRead rfl rfl rfl⟩

/-- Claim C7: for a readable file, `read_urls_from_file` returns, in file
order, the stripped first-column value of every row with a non-empty
stripped first column when the path's extension is `.csv` case-insensitively,
and otherwise every stripped line that is non-blank and does not start
with `#`. -/
theorem read_urls_readable_file (path : String) (f : FileRead)
    (hok : f.fails = false) :
    read_urls_from_file path f =
      if isCsvExt path then csvSpecUrls f.rows else textSpecUrls f.lines := by
  simp only [read_urls_from_file, isCsvExt]
  split
  · exact csvCollect_eq f.rows
  · exact textCollect_eq f.lines

/-- Witness for C7: a completed text read with blank, comment and padded
lines amid the URLs. -/
theorem read_urls_readable_file_witness :
    okRead.fails = false ∧
    read_urls_from_file "a/list.TXT" okRead =
      (if isCsvExt "a/list.TXT" then csvSpecUrls okRead.rows
       else textSpecUrls okRead.lines) :=
  ⟨rfl, read_urls_readable_file "a/list.TXT" okRead rfl⟩

/-- Claim C10: CSV mode does not treat `#` as a comment marker — any row
whose stripped first column is non-empty, even one starting with `#`, has
that value in the returned list — while in non-CSV line mode no returned
URL starts with `#`. -/
theorem csv_mode_has_no_comment_marker :
    (∀ (path : String) (f : FileRead) (row : List String),
        isCsvExt path = true → row ∈ f.rows →
        pstrip (row.headD "") ≠ "" →
        pyStartsWith (pstrip (row.headD "")) "#" = true →
        pstrip (row.headD "") ∈ read_urls_from_file path f) ∧
    (∀ (path : String) (f : FileRead) (u : String),
        isCsvExt path = false → u ∈ read_urls_from_file path f →
        pyStartsWith u "#" = false) := by
  constructor
  · intro path f row hcsv hrow hne _hhash
    simp only [isCsvExt] at hcsv
    simp only [read_urls_from_file, hcsv, if_true]
    rw [csvCollect_eq]
    rw [List.headD_eq_head?] at hne
    exact List.mem_filterMap.mpr ⟨row, hrow, by simp; exact hne⟩
  · intro path f u hnot hmem
    simp only [isCsvExt] at hnot
    simp only [read_urls_from_file, hnot, Bool.false_eq_true, if_false] at hmem
    rw [textCollect_eq] at hmem
    simp only [textSpecUrls, List.mem_filter] at hmem
    have hpred := hmem.2
    simp only [Bool.and_eq_true, Bool.not_eq_true'] at hpred
    exact hpred.2

/-- Witness for C10: a `.csv` file whose only row's first column is
`#chan`; it is returned. -/
theorem csv_mode_has_no_comment_marker_witness :
    isCsvExt "a.csv" = true ∧ ["#chan", "x"] ∈ hashCsvRead.rows ∧
    pstrip (["#chan", "x"].headD "") ≠ "" ∧
    pyStartsWith (pstrip (["#chan", "x"].headD "")) "#" = true ∧
    pstrip (["#chan", "x"].headD "") ∈ read_urls_from_file "a.csv" hashCsvRead := by
  refine ⟨by decide, by decide, by decide, by decide, ?_⟩
  exact csv_mode_has_no_comment_marker.1 "a.csv" hashCsvRead ["#chan", "x"]
    (by decide) (by decide) (by decide) (by decide)

/-- Counterexample to C8 as stated: the exit status taken on a user
interrupt (0) is not a dedicated cancellation code — a normal completion,
here one containing a failed download, exits with the very same status. -/
theorem interrupt_code_equals_success_code :
    mainExitCode .interrupted = 0 ∧
    mainExitCode (.completed [("https://youtu.be/a", false, "", "下载错误: x")]) = 0 ∧
    mainExitCode .interrupted =
      mainExitCode (.completed [("https://youtu.be/a", false, "", "下载错误: x")]) :=
  ⟨rfl, rfl, rfl⟩

/-- Claim C8 (amended): a KeyboardInterrupt exits with status 0 and an
unhandled top-level error with status 1 — distinct from one another — and
normal completion exits successfully (status 0) even when some downloads
failed; but the cancellation status is not dedicated: it coincides with
the normal-completion status. -/
theorem main_exit_codes (m : String)
    (results : List (String × Bool × String × String)) :
    mainExitCode .interrupted = 0 ∧
    mainExitCode (.unhandledError m) = 1 ∧
    mainExitCode (.completed results) = 0 ∧
    mainExitCode .interrupted ≠ mainExitCode (.unhandledError m) ∧
    mainExitCode .interrupted = mainExitCode (.completed results) :=
  ⟨rfl, rfl, rfl, Nat.zero_ne_one, rfl⟩
